import Mathlib

/-!
Shallow embedding of the weekly staffing planner (src/main.py).

Times of day are modelled as seconds since midnight (Python `datetime.time`
carries second resolution; the code uses the sentinel `time(23,59,59)` =
86399).  Minute steps are `step_minutes * 60` seconds.  The occupancy grid
(a pandas DataFrame with a time-label row index and the seven weekday
columns) is modelled as a row-label list, a column-label list, and a cell
function from (time label, column index) to count; the DataFrame update
`df.iloc[df.index.get_loc(tt), d_idx] += 1` guarded by `tt in df.index`
bumps the cell at the row labelled `tt` (row labels are pairwise distinct
in every grid the program builds).

The Python `while` loops step by a caller-supplied positive number of
minutes; they are embedded with an explicit fuel argument that is large
enough whenever the step is positive (for step 0 the Python loop would not
terminate at all, so every statement below assumes a positive step).
-/

namespace Scheduler

/-- Weekday column labels, Monday first (src/main.py line 14). -/
def DAYS : List String :=
  ["Monday", "Tuesday", "Wednesday", "Thursday", "Friday", "Saturday", "Sunday"]

/-- Fuel-indexed form of the loop `while t < stop: yield t; t += step`
(src/main.py lines 37-40 and 32-35, and the row loop in lines 44-50). -/
def stepTimesGo : Nat → Nat → Nat → Nat → List Nat
  | 0, _, _, _ => []
  | n + 1, t, stop, step => if t < stop then t :: stepTimesGo n (t + step) stop step else []

/-- The loop `while t < stop: yield t; t += step`; the fuel `stop - t`
suffices because each iteration advances `t` by `step ≥ 1`. -/
def stepTimes (t stop step : Nat) : List Nat :=
  stepTimesGo (stop - t) t stop step

/-- Fuel-indexed form of the inclusive loop `while t <= stop: yield t; t += step`
(src/main.py lines 27-30). -/
def stepTimesInclGo : Nat → Nat → Nat → Nat → List Nat
  | 0, _, _, _ => []
  | n + 1, t, stop, step => if t ≤ stop then t :: stepTimesInclGo n (t + step) stop step else []

/-- The loop `while t <= stop: yield t; t += step`. -/
def stepTimesIncl (t stop step : Nat) : List Nat :=
  stepTimesInclGo (stop + 1 - t) t stop step

/-- `time_range` (src/main.py lines 17-40): yield times from `[start, end)`
at `step_minutes` minute steps; if `end <= start`, wrap at midnight:
the first loop runs inclusively up to `t_mid = 23:59:59` (86399), the
second from `00:00` strictly below `end`. -/
def time_range (start end_ step_minutes : Nat) : List Nat :=
  if end_ ≤ start then
    stepTimesIncl start 86399 (step_minutes * 60) ++ stepTimes 0 end_ (step_minutes * 60)
  else
    stepTimes start end_ (step_minutes * 60)

/-- The occupancy grid: row labels (times in seconds), column labels
(weekday names), and the cell contents keyed by (row label, column index). -/
@[ext]
structure Grid where
  times : List Nat
  days : List String
  cells : Nat → Nat → Nat

/-- `build_empty_grid` (src/main.py lines 42-53): rows from `00:00` while
strictly below 24 h (86400 s) at `step_minutes` steps, the seven weekday
columns, all cells zero. -/
def build_empty_grid (step_minutes : Nat) : Grid :=
  { times := stepTimes 0 86400 (step_minutes * 60)
    days := DAYS
    cells := fun _ _ => 0 }

/-- The day-interpretation mode: the strings "Working days" / "Days off"
offered by the mode selectbox (src/main.py line 100). -/
inductive Mode where
  | workingDays
  | daysOff
deriving DecidableEq

/-- One person record (the dict built in src/main.py lines 136-143):
keys id, name, mode, days, start, end. -/
structure Person where
  id : String
  name : String
  mode : Mode
  days : List Nat
  start : Nat
  end_ : Nat
deriving DecidableEq

/-- Day-mode resolution (src/main.py lines 61-65): `Working days` keeps the
selected days, `Days off` takes the complement inside `range(7)`. -/
def resolveDays (mode : Mode) (days : List Nat) : List Nat :=
  match mode with
  | .workingDays => days
  | .daysOff => (List.range 7).filter (fun i => ! days.contains i)

/-- One grid increment (src/main.py lines 74-75, 80-81, 84-85):
`if tt in df.index: df.iloc[df.index.get_loc(tt), d_idx] += 1`. -/
def incCell (df : Grid) (tt d_idx : Nat) : Grid :=
  if tt ∈ df.times then
    { df with cells := fun t c => if t = tt ∧ c = d_idx then df.cells t c + 1 else df.cells t c }
  else df

/-- Body of the per-day loop of `apply_person_to_grid`
(src/main.py lines 69-85): same-day shifts use one pass over
`time_range(start, end)`; overnight shifts use `time_range(start, 23:59:59)`
on day `d_idx` and `time_range(00:00, end)` on day `(d_idx + 1) % 7`. -/
def applyDay (person : Person) (step_minutes : Nat) (df : Grid) (d_idx : Nat) : Grid :=
  if person.end_ > person.start then
    (time_range person.start person.end_ step_minutes).foldl
      (fun df tt => incCell df tt d_idx) df
  else
    (time_range 0 person.end_ step_minutes).foldl
      (fun df tt => incCell df tt ((d_idx + 1) % 7))
      ((time_range person.start 86399 step_minutes).foldl
        (fun df tt => incCell df tt d_idx) df)

/-- `apply_person_to_grid` (src/main.py lines 55-85). -/
def apply_person_to_grid (df : Grid) (person : Person) (step_minutes : Nat) : Grid :=
  (resolveDays person.mode person.days).foldl (applyDay person step_minutes) df

/-- The aggregation driver (src/main.py lines 217-219; the spec's
`computeOccupancy`): build the empty grid, then project every person. -/
def computeOccupancy (people : List Person) (interval : Nat) : Grid :=
  people.foldl (fun grid person => apply_person_to_grid grid person interval)
    (build_empty_grid interval)

/-- Replacement of the first list entry whose id matches
(src/main.py lines 148-151: linear scan with `break`). -/
def replaceFirst : List Person → String → Person → List Person
  | [], _, _ => []
  | p :: rest, eid, payload =>
    if p.id = eid then payload :: rest else p :: replaceFirst rest eid payload

/-- Python's `str.isspace()` character class (CPython `Py_UNICODE_ISSPACE`):
the ASCII whitespace and separator controls 0x09-0x0D, 0x1C-0x1F and 0x20,
next-line 0x85, and the Unicode space characters 0xA0 (NBSP), 0x1680,
0x2000-0x200A, 0x2028, 0x2029, 0x202F, 0x205F and 0x3000. -/
def pyIsSpace (c : Char) : Bool :=
  decide (c.toNat ∈ ([0x09, 0x0A, 0x0B, 0x0C, 0x0D, 0x1C, 0x1D, 0x1E, 0x1F, 0x20, 0x85,
      0xA0, 0x1680, 0x2028, 0x2029, 0x202F, 0x205F, 0x3000] : List Nat)
    ∨ (0x2000 ≤ c.toNat ∧ c.toNat ≤ 0x200A))

/-- Python's `str.strip()` (no arguments): remove leading and trailing
whitespace.  Used by the handler as `name.strip()` (src/main.py lines 131 and
138). -/
def pyStrip (s : String) : String :=
  ⟨((s.data.dropWhile pyIsSpace).reverse.dropWhile pyIsSpace).reverse⟩

/-- The add/update button handler (src/main.py lines 130-153), as a function
from the current person list and form inputs to the new person list plus the
sidebar error message, if any.  `new_id` stands for the fresh
`str(uuid.uuid4())` used when no edit is in progress; the payload dict's id
is `edit_id or uuid` (line 137), written here per match arm. -/
def add_update_action (people : List Person) (edit_id : Option String) (new_id : String)
    (name : String) (mode : Mode) (days : List Nat) (start_t end_t : Nat) :
    List Person × Option String :=
  if pyStrip name = "" then
    (people, some "Please enter a name.")
  else if start_t = end_t then
    (people, some "Start time and end time cannot be identical (duration would be 0).")
  else
    match edit_id with
    | none =>
      (people ++ [⟨new_id, pyStrip name, mode, days, start_t, end_t⟩], none)
    | some eid =>
      (replaceFirst people eid ⟨eid, pyStrip name, mode, days, start_t, end_t⟩, none)

/-- Per-day slot-hit count of one person at cell (t, c): how many ticks of
the day-`d` loop (and, for overnight shifts, the next-day loop) of
`applyDay` land on row label `t` in column `c`. -/
def tickCount (p : Person) (step : Nat) (times : List Nat) (t c d : Nat) : Nat :=
  if p.end_ > p.start then
    if t ∈ times ∧ c = d then (time_range p.start p.end_ step).count t else 0
  else
    (if t ∈ times ∧ c = d then (time_range p.start 86399 step).count t else 0)
      + (if t ∈ times ∧ c = (d + 1) % 7 then (time_range 0 p.end_ step).count t else 0)

/-! ### Counting the ticks produced by the stepping loops -/

theorem stepTimesGo_count (step : Nat) (hstep : 0 < step) :
    ∀ (n t stop x : Nat), stop - t ≤ n →
      (stepTimesGo n t stop step).count x =
        if t ≤ x ∧ x < stop ∧ (x - t) % step = 0 then 1 else 0 := by
  intro n
  induction n with
  | zero =>
    intro t stop x h
    simp only [stepTimesGo, List.count_nil]
    split
    · next hc => omega
    · rfl
  | succ n ih =>
    intro t stop x h
    simp only [stepTimesGo]
    by_cases hts : t < stop
    · rw [if_pos hts, List.count_cons, ih (t + step) stop x (by omega)]
      simp only [beq_iff_eq]
      by_cases hx : t = x
      · subst hx
        rw [if_neg (by omega)]
        simp [hts]
      · rw [if_neg hx]
        have key : (t + step ≤ x ∧ x < stop ∧ (x - (t + step)) % step = 0) ↔
            (t ≤ x ∧ x < stop ∧ (x - t) % step = 0) := by
          constructor
          · rintro ⟨h1, h2, h3⟩
            refine ⟨by omega, h2, ?_⟩
            have hxt : x - t = (x - (t + step)) + step := by omega
            rw [hxt, Nat.add_mod_right]
            exact h3
          · rintro ⟨h1, h2, h3⟩
            have hlt : t < x := by omega
            have hdvd : step ∣ (x - t) := Nat.dvd_of_mod_eq_zero h3
            have hge : step ≤ x - t := Nat.le_of_dvd (by omega) hdvd
            refine ⟨by omega, h2, ?_⟩
            have hxt : x - t = (x - (t + step)) + step := by omega
            rw [hxt, Nat.add_mod_right] at h3
            exact h3
        rw [if_congr key rfl rfl]
        omega
    · rw [if_neg hts, List.count_nil]
      split
      · next hc => omega
      · rfl

theorem stepTimesInclGo_count (step : Nat) (hstep : 0 < step) :
    ∀ (n t stop x : Nat), stop + 1 - t ≤ n →
      (stepTimesInclGo n t stop step).count x =
        if t ≤ x ∧ x ≤ stop ∧ (x - t) % step = 0 then 1 else 0 := by
  intro n
  induction n with
  | zero =>
    intro t stop x h
    simp only [stepTimesInclGo, List.count_nil]
    split
    · next hc => omega
    · rfl
  | succ n ih =>
    intro t stop x h
    simp only [stepTimesInclGo]
    by_cases hts : t ≤ stop
    · rw [if_pos hts, List.count_cons, ih (t + step) stop x (by omega)]
      simp only [beq_iff_eq]
      by_cases hx : t = x
      · subst hx
        rw [if_neg (by omega)]
        simp [hts]
      · rw [if_neg hx]
        have key : (t + step ≤ x ∧ x ≤ stop ∧ (x - (t + step)) % step = 0) ↔
            (t ≤ x ∧ x ≤ stop ∧ (x - t) % step = 0) := by
          constructor
          · rintro ⟨h1, h2, h3⟩
            refine ⟨by omega, h2, ?_⟩
            have hxt : x - t = (x - (t + step)) + step := by omega
            rw [hxt, Nat.add_mod_right]
            exact h3
          · rintro ⟨h1, h2, h3⟩
            have hlt : t < x := by omega
            have hdvd : step ∣ (x - t) := Nat.dvd_of_mod_eq_zero h3
            have hge : step ≤ x - t := Nat.le_of_dvd (by omega) hdvd
            refine ⟨by omega, h2, ?_⟩
            have hxt : x - t = (x - (t + step)) + step := by omega
            rw [hxt, Nat.add_mod_right] at h3
            exact h3
        rw [if_congr key rfl rfl]
        omega
    · rw [if_neg hts, List.count_nil]
      split
      · next hc => omega
      · rfl

theorem stepTimes_count (t stop step x : Nat) (hstep : 0 < step) :
    (stepTimes t stop step).count x =
      if t ≤ x ∧ x < stop ∧ (x - t) % step = 0 then 1 else 0 :=
  stepTimesGo_count step hstep (stop - t) t stop x (Nat.le_refl _)

theorem stepTimesIncl_count (t stop step x : Nat) (hstep : 0 < step) :
    (stepTimesIncl t stop step).count x =
      if t ≤ x ∧ x ≤ stop ∧ (x - t) % step = 0 then 1 else 0 :=
  stepTimesInclGo_count step hstep (stop + 1 - t) t stop x (Nat.le_refl _)

theorem stepTimes_mem (t stop step x : Nat) (hstep : 0 < step) :
    x ∈ stepTimes t stop step ↔ (t ≤ x ∧ x < stop ∧ (x - t) % step = 0) := by
  rw [← List.count_pos_iff, stepTimes_count t stop step x hstep]
  split
  · next hc => simpa using hc
  · next hc => simpa using hc

theorem stepTimesGo_eq_map (step : Nat) (hstep : 0 < step) :
    ∀ (k n t : Nat), k ≤ n →
      stepTimesGo n t (t + k * step) step = (List.range k).map (fun j => t + j * step) := by
  intro k
  induction k with
  | zero =>
    intro n t _
    cases n with
    | zero => simp [stepTimesGo]
    | succ n => simp [stepTimesGo]
  | succ k ih =>
    intro n t hk
    cases n with
    | zero => omega
    | succ n =>
      have hpos : 0 < (k + 1) * step := Nat.mul_pos (Nat.succ_pos k) hstep
      simp only [stepTimesGo, if_pos (show t < t + (k + 1) * step by omega)]
      have harg : t + (k + 1) * step = (t + step) + k * step := by
        have hsm : (k + 1) * step = k * step + step := Nat.succ_mul k step
        omega
      rw [harg, ih n (t + step) (by omega), List.range_succ_eq_map, List.map_cons,
        List.map_map]
      have hfun : ((fun j => t + j * step) ∘ Nat.succ) = (fun j => (t + step) + j * step) := by
        funext j
        simp only [Function.comp, Nat.succ_eq_add_one]
        have hsm : (j + 1) * step = j * step + step := Nat.succ_mul j step
        omega
      rw [hfun]
      simp

/-! ### Row labels of the freshly built grid -/

theorem build_times_mem (i t : Nat) (hi : 0 < i) :
    t ∈ (build_empty_grid i).times ↔ t < 86400 ∧ t % (i * 60) = 0 := by
  have h60 : 0 < i * 60 := by omega
  show t ∈ stepTimes 0 86400 (i * 60) ↔ _
  rw [stepTimes_mem 0 86400 (i * 60) t h60]
  simp

theorem build_times_eq (i : Nat) (hi : 0 < i) (hdvd : 1440 % i = 0) :
    (build_empty_grid i).times = (List.range (1440 / i)).map (fun k => k * (i * 60)) := by
  have h60 : 0 < i * 60 := by omega
  have h1 : (1440 / i) * i = 1440 := Nat.div_mul_cancel (Nat.dvd_of_mod_eq_zero hdvd)
  have hstop : 86400 = 0 + (1440 / i) * (i * 60) := by
    rw [← Nat.mul_assoc, h1]
  have hfuel : 1440 / i ≤ 86400 - 0 := by
    have := Nat.div_le_self 1440 i
    omega
  show stepTimes 0 86400 (i * 60) = _
  unfold stepTimes
  rw [hstop, stepTimesGo_eq_map (i * 60) h60 (1440 / i) (0 + (1440 / i) * (i * 60) - 0) 0
    (by rw [← hstop]; exact hfuel)]
  simp

/-! ### How `incCell` and the projection loops act on a grid -/

theorem incCell_times (g : Grid) (tt d : Nat) : (incCell g tt d).times = g.times := by
  unfold incCell
  split <;> rfl

theorem incCell_days (g : Grid) (tt d : Nat) : (incCell g tt d).days = g.days := by
  unfold incCell
  split <;> rfl

theorem incCell_cells (g : Grid) (tt d t c : Nat) :
    (incCell g tt d).cells t c =
      g.cells t c + (if tt ∈ g.times ∧ t = tt ∧ c = d then 1 else 0) := by
  unfold incCell
  split
  · next hmem =>
    simp only
    split
    · next htc => rw [if_pos ⟨hmem, htc.1, htc.2⟩]
    · next htc =>
      rw [if_neg (fun hc => htc ⟨hc.2.1, hc.2.2⟩)]
      omega
  · next hmem =>
    rw [if_neg (fun hc => hmem hc.1)]
    omega

theorem foldl_incCell_times (d : Nat) (l : List Nat) :
    ∀ (g : Grid), (l.foldl (fun df tt => incCell df tt d) g).times = g.times := by
  induction l with
  | nil => intro g; rfl
  | cons a l ih => intro g; rw [List.foldl_cons, ih, incCell_times]

theorem foldl_incCell_days (d : Nat) (l : List Nat) :
    ∀ (g : Grid), (l.foldl (fun df tt => incCell df tt d) g).days = g.days := by
  induction l with
  | nil => intro g; rfl
  | cons a l ih => intro g; rw [List.foldl_cons, ih, incCell_days]

theorem foldl_incCell_cells (d t c : Nat) (l : List Nat) :
    ∀ (g : Grid), (l.foldl (fun df tt => incCell df tt d) g).cells t c =
      g.cells t c + (if t ∈ g.times ∧ c = d then l.count t else 0) := by
  induction l with
  | nil => intro g; simp
  | cons a l ih =>
    intro g
    rw [List.foldl_cons, ih, incCell_cells, incCell_times, List.count_cons]
    simp only [beq_iff_eq]
    by_cases hta : a = t
    · subst hta
      by_cases hmem : a ∈ g.times
      · by_cases hcd : c = d
        · rw [if_pos ⟨hmem, rfl, hcd⟩, if_pos ⟨hmem, hcd⟩, if_pos ⟨hmem, hcd⟩, if_pos rfl]
          omega
        · rw [if_neg (fun hc => hcd hc.2.2), if_neg (fun hc => hcd hc.2),
            if_neg (fun hc => hcd hc.2)]
      · rw [if_neg (fun hc => hmem hc.1), if_neg (fun hc => hmem hc.1),
          if_neg (fun hc => hmem hc.1)]
    · rw [if_neg (fun hc => hta hc.2.1.symm), if_neg hta]
      simp only [Nat.add_zero]

theorem applyDay_times (p : Person) (step : Nat) (df : Grid) (d : Nat) :
    (applyDay p step df d).times = df.times := by
  unfold applyDay
  split
  · exact foldl_incCell_times _ _ _
  · rw [foldl_incCell_times, foldl_incCell_times]

theorem applyDay_days (p : Person) (step : Nat) (df : Grid) (d : Nat) :
    (applyDay p step df d).days = df.days := by
  unfold applyDay
  split
  · exact foldl_incCell_days _ _ _
  · rw [foldl_incCell_days, foldl_incCell_days]

theorem applyDay_cells (p : Person) (step : Nat) (df : Grid) (d t c : Nat) :
    (applyDay p step df d).cells t c = df.cells t c + tickCount p step df.times t c d := by
  unfold applyDay tickCount
  split
  · rw [foldl_incCell_cells]
  · rw [foldl_incCell_cells, foldl_incCell_cells, foldl_incCell_times, Nat.add_assoc]

theorem dayfold_times (p : Person) (step : Nat) (ds : List Nat) :
    ∀ (g : Grid), (ds.foldl (applyDay p step) g).times = g.times := by
  induction ds with
  | nil => intro g; rfl
  | cons d ds ih => intro g; rw [List.foldl_cons, ih, applyDay_times]

theorem dayfold_days (p : Person) (step : Nat) (ds : List Nat) :
    ∀ (g : Grid), (ds.foldl (applyDay p step) g).days = g.days := by
  induction ds with
  | nil => intro g; rfl
  | cons d ds ih => intro g; rw [List.foldl_cons, ih, applyDay_days]

theorem dayfold_cells (p : Person) (step t c : Nat) (ds : List Nat) :
    ∀ (g : Grid), (ds.foldl (applyDay p step) g).cells t c =
      g.cells t c + (ds.map (tickCount p step g.times t c)).sum := by
  induction ds with
  | nil => intro g; simp
  | cons d ds ih =>
    intro g
    rw [List.foldl_cons, ih, applyDay_cells, applyDay_times, List.map_cons, List.sum_cons,
      Nat.add_assoc]

theorem apply_times (g : Grid) (p : Person) (step : Nat) :
    (apply_person_to_grid g p step).times = g.times :=
  dayfold_times p step _ g

theorem apply_days (g : Grid) (p : Person) (step : Nat) :
    (apply_person_to_grid g p step).days = g.days :=
  dayfold_days p step _ g

theorem apply_cells (g : Grid) (p : Person) (step t c : Nat) :
    (apply_person_to_grid g p step).cells t c =
      g.cells t c + ((resolveDays p.mode p.days).map (tickCount p step g.times t c)).sum :=
  dayfold_cells p step t c _ g

theorem apply_comm (g : Grid) (p q : Person) (step : Nat) :
    apply_person_to_grid (apply_person_to_grid g p step) q step =
      apply_person_to_grid (apply_person_to_grid g q step) p step := by
  have ht : (apply_person_to_grid (apply_person_to_grid g p step) q step).times =
      (apply_person_to_grid (apply_person_to_grid g q step) p step).times := by
    rw [apply_times, apply_times, apply_times, apply_times]
  have hd : (apply_person_to_grid (apply_person_to_grid g p step) q step).days =
      (apply_person_to_grid (apply_person_to_grid g q step) p step).days := by
    rw [apply_days, apply_days, apply_days, apply_days]
  have hc : (apply_person_to_grid (apply_person_to_grid g p step) q step).cells =
      (apply_person_to_grid (apply_person_to_grid g q step) p step).cells := by
    funext t c
    rw [apply_cells, apply_cells, apply_cells, apply_cells, apply_times, apply_times]
    omega
  exact Grid.ext ht hd hc

theorem perm_fold {l1 l2 : List Person} (h : List.Perm l1 l2) :
    ∀ (g : Grid) (step : Nat),
      l1.foldl (fun grid person => apply_person_to_grid grid person step) g =
        l2.foldl (fun grid person => apply_person_to_grid grid person step) g := by
  induction h with
  | nil => intro g step; rfl
  | cons x h ih =>
    intro g step
    rw [List.foldl_cons, List.foldl_cons, ih]
  | swap x y l =>
    intro g step
    simp only [List.foldl_cons]
    rw [apply_comm]
  | trans h1 h2 ih1 ih2 =>
    intro g step
    rw [ih1, ih2]

/-! ### Tick counts of `time_range` and per-person slot hits -/

theorem time_range_count_sameday (s e m x : Nat) (hm : 0 < m) (h : s < e) :
    (time_range s e m).count x =
      if s ≤ x ∧ x < e ∧ (x - s) % (m * 60) = 0 then 1 else 0 := by
  have h60 : 0 < m * 60 := by omega
  unfold time_range
  rw [if_neg (by omega), stepTimes_count s e (m * 60) x h60]

theorem time_range_count_wrap (s e m x : Nat) (hm : 0 < m) (h : e ≤ s) :
    (time_range s e m).count x =
      (if s ≤ x ∧ x ≤ 86399 ∧ (x - s) % (m * 60) = 0 then 1 else 0)
        + (if x < e ∧ x % (m * 60) = 0 then 1 else 0) := by
  have h60 : 0 < m * 60 := by omega
  unfold time_range
  rw [if_pos h, List.count_append, stepTimesIncl_count s 86399 (m * 60) x h60,
    stepTimes_count 0 e (m * 60) x h60]
  congr 1
  simp

theorem apply_singleton_cells (g : Grid) (idv nm : String) (d s e step t c : Nat) :
    (apply_person_to_grid g ⟨idv, nm, Mode.workingDays, [d], s, e⟩ step).cells t c =
      g.cells t c + tickCount ⟨idv, nm, Mode.workingDays, [d], s, e⟩ step g.times t c d := by
  rw [apply_cells]
  simp [resolveDays]

theorem tickCount_sameday (p : Person) (step : Nat) (times : List Nat) (t c d : Nat) (hstep : 0 < step)
    (h : p.start < p.end_) :
    tickCount p step times t c d =
      if t ∈ times ∧ c = d then
        (if p.start ≤ t ∧ t < p.end_ ∧ (t - p.start) % (step * 60) = 0 then 1 else 0)
      else 0 := by
  unfold tickCount
  rw [if_pos h, time_range_count_sameday p.start p.end_ step t hstep h]

theorem tickCount_overnight (p : Person) (step : Nat) (times : List Nat) (t c d : Nat) (hstep : 0 < step)
    (h : p.end_ ≤ p.start) (hs : p.start < 86399) (he : 0 < p.end_) :
    tickCount p step times t c d =
      (if t ∈ times ∧ c = d then
        (if p.start ≤ t ∧ t < 86399 ∧ (t - p.start) % (step * 60) = 0 then 1 else 0)
      else 0)
        + (if t ∈ times ∧ c = (d + 1) % 7 then
            (if t < p.end_ ∧ t % (step * 60) = 0 then 1 else 0)
          else 0) := by
  unfold tickCount
  rw [if_neg (by omega : ¬ p.end_ > p.start),
    time_range_count_sameday p.start 86399 step t hstep hs,
    time_range_count_sameday 0 p.end_ step t hstep (by omega)]
  congr 2
  simp

/-- Every row label of a grid with the standard row index is a multiple of
the step width (and of 60 s), and lies strictly inside the day. -/
theorem standard_times_fact (g : Grid) (step t : Nat) (hstep : 0 < step)
    (hg : g.times = stepTimes 0 86400 (step * 60)) (ht : t ∈ g.times) :
    t < 86400 ∧ t % (step * 60) = 0 ∧ t % 60 = 0 := by
  rw [hg] at ht
  have h60 : 0 < step * 60 := by omega
  have hmem := (stepTimes_mem 0 86400 (step * 60) t h60).1 ht
  have hlt : t < 86400 := hmem.2.1
  have hmod : t % (step * 60) = 0 := by
    have := hmem.2.2
    simpa using this
  refine ⟨hlt, hmod, ?_⟩
  have hdvd1 : (60 : Nat) ∣ step * 60 := Dvd.intro_left step rfl
  have hdvd2 : step * 60 ∣ t := Nat.dvd_of_mod_eq_zero hmod
  obtain ⟨k, hk⟩ := dvd_trans hdvd1 hdvd2
  subst hk
  simp [Nat.mul_mod_right]

/-- Aggregating a single person applies the projector once to the empty grid. -/
theorem computeOccupancy_singleton (p : Person) (interval : Nat) :
    computeOccupancy [p] interval =
      apply_person_to_grid (build_empty_grid interval) p interval := by
  unfold computeOccupancy
  rw [List.foldl_cons, List.foldl_nil]

/-! ### Claim theorems -/

/-- C3: for every same-day person shift (end strictly later than start) and every
resolved weekday `d`, the projector increments on day `d` exactly the grid rows
whose slot `t` satisfies `start ≤ t < end` stepping from `start` at interval
granularity, each by 1, and changes no other cell; in particular the person
WorkingDays {Monday}, 09:00-17:00, interval 60 increments exactly the 8 Monday
rows 09:00-16:00 by 1 and leaves every other cell at 0. -/
theorem sameday_projection_spec :
    (∀ (g : Grid) (idv nm : String) (d s e step t c : Nat), 0 < step → s < e → d < 7 →
      (apply_person_to_grid g ⟨idv, nm, Mode.workingDays, [d], s, e⟩ step).cells t c =
        g.cells t c +
          (if c = d ∧ t ∈ g.times ∧ s ≤ t ∧ t < e ∧ (t - s) % (step * 60) = 0 then 1
            else 0)) ∧
    (∀ t c : Nat,
      (computeOccupancy [⟨"p1", "Alice", Mode.workingDays, [0], 32400, 61200⟩] 60).cells t c =
        if c = 0 ∧ (t = 32400 ∨ t = 36000 ∨ t = 39600 ∨ t = 43200 ∨ t = 46800 ∨ t = 50400
          ∨ t = 54000 ∨ t = 57600) then 1 else 0) := by
  have main : ∀ (g : Grid) (idv nm : String) (d s e step t c : Nat), 0 < step → s < e →
      (apply_person_to_grid g ⟨idv, nm, Mode.workingDays, [d], s, e⟩ step).cells t c =
        g.cells t c +
          (if c = d ∧ t ∈ g.times ∧ s ≤ t ∧ t < e ∧ (t - s) % (step * 60) = 0 then 1
            else 0) := by
    intro g idv nm d s e step t c hstep hse
    rw [apply_singleton_cells, tickCount_sameday _ _ _ _ _ _ hstep hse, ← ite_and]
    congr 1
    exact if_congr (by tauto) rfl rfl
  constructor
  · intro g idv nm d s e step t c hstep hse hd
    exact main g idv nm d s e step t c hstep hse
  · intro t c
    have hmem := build_times_mem 60 t (by norm_num)
    have h := main (build_empty_grid 60) "p1" "Alice" 0 32400 61200 60 t c (by norm_num)
      (by norm_num)
    rw [computeOccupancy_singleton, h, show (build_empty_grid 60).cells t c = 0 from rfl,
      Nat.zero_add]
    simp only [hmem]
    split_ifs <;> omega

/-- Witness for C3 at the Monday 09:00 cell of the concrete example. -/
theorem sameday_projection_spec_witness :
    (0 : Nat) < 60 ∧ (32400 : Nat) < 61200 ∧ (0 : Nat) < 7 ∧
    (apply_person_to_grid (build_empty_grid 60)
        ⟨"p1", "Alice", Mode.workingDays, [0], 32400, 61200⟩ 60).cells 32400 0 =
      (build_empty_grid 60).cells 32400 0 +
        (if 0 = 0 ∧ 32400 ∈ (build_empty_grid 60).times ∧ 32400 ≤ 32400 ∧ 32400 < 61200 ∧
          (32400 - 32400) % (60 * 60) = 0 then 1 else 0) :=
  ⟨by decide, by decide, by decide,
    sameday_projection_spec.1 (build_empty_grid 60) "p1" "Alice" 0 32400 61200 60 32400 0
      (by decide) (by decide) (by decide)⟩

/-- C4: day-mode resolution keeps the selected days under WorkingDays and takes
the complement inside {0..6} under DaysOff; hence DaysOff {Saturday, Sunday}
yields exactly the grid contribution of WorkingDays {Monday..Friday} for the
same shift. -/
theorem resolveDays_spec :
    (∀ days : List Nat, resolveDays Mode.workingDays days = days) ∧
    (∀ (days : List Nat) (d : Nat),
      d ∈ resolveDays Mode.daysOff days ↔ d < 7 ∧ d ∉ days) ∧
    (∀ (g : Grid) (step s e : Nat) (idv nm : String),
      apply_person_to_grid g ⟨idv, nm, Mode.daysOff, [5, 6], s, e⟩ step =
        apply_person_to_grid g ⟨idv, nm, Mode.workingDays, [0, 1, 2, 3, 4], s, e⟩ step) := by
  refine ⟨fun days => rfl, ?_, ?_⟩
  · intro days d
    simp [resolveDays, List.mem_filter, List.mem_range]
  · intro g step s e idv nm
    rfl

/-- C5: for every positive interval size dividing 1440, the empty grid has
exactly 1440/i rows labelled 0, i, 2i, ... minutes (seconds k·(i·60)) up to but
excluding 24:00, the 7 weekday columns Monday-first, and every cell zero. -/
theorem buildEmptyGrid_shape (i : Nat) (hi : 0 < i) (hdvd : 1440 % i = 0) :
    (build_empty_grid i).times = (List.range (1440 / i)).map (fun k => k * (i * 60)) ∧
    (build_empty_grid i).times.length = 1440 / i ∧
    (build_empty_grid i).days = DAYS ∧
    (build_empty_grid i).days.length = 7 ∧
    (∀ t c, (build_empty_grid i).cells t c = 0) := by
  refine ⟨build_times_eq i hi hdvd, ?_, rfl, rfl, fun t c => rfl⟩
  rw [build_times_eq i hi hdvd]
  simp

/-- Witness for C5 at interval 30. -/
theorem buildEmptyGrid_shape_witness :
    (0 : Nat) < 30 ∧ 1440 % 30 = 0 ∧
    (build_empty_grid 30).times = (List.range (1440 / 30)).map (fun k => k * (30 * 60)) ∧
    (build_empty_grid 30).times.length = 1440 / 30 ∧
    (build_empty_grid 30).days = DAYS ∧
    (build_empty_grid 30).days.length = 7 ∧
    (build_empty_grid 30).cells 0 0 = 0 := by
  have h := buildEmptyGrid_shape 30 (by decide) (by decide)
  exact ⟨by decide, by decide, h.1, h.2.1, h.2.2.1, h.2.2.2.1, h.2.2.2.2 0 0⟩

/-- C7: the aggregated grid is invariant under any permutation of the person
list (cell increments commute). -/
theorem computeOccupancy_perm_invariant (interval : Nat) (l1 l2 : List Person)
    (h : List.Perm l1 l2) : computeOccupancy l1 interval = computeOccupancy l2 interval :=
  perm_fold h (build_empty_grid interval) interval

/-- Witness for C7: swapping two concrete people gives the identical grid. -/
theorem computeOccupancy_perm_invariant_witness :
    computeOccupancy [⟨"a", "Ana", Mode.workingDays, [0], 32400, 61200⟩,
        ⟨"b", "Ben", Mode.daysOff, [5, 6], 79200, 21600⟩] 60 =
      computeOccupancy [⟨"b", "Ben", Mode.daysOff, [5, 6], 79200, 21600⟩,
        ⟨"a", "Ana", Mode.workingDays, [0], 32400, 61200⟩] 60 :=
  computeOccupancy_perm_invariant 60 _ _ (List.Perm.swap _ _ [])

/-- C9: projecting a person onto a grid only ever increments cells (never
decrements or resets); cell values are monotonically non-decreasing as more
people are projected. -/
theorem projection_monotone :
    (∀ (g : Grid) (p : Person) (step t c : Nat),
      g.cells t c ≤ (apply_person_to_grid g p step).cells t c) ∧
    (∀ (people : List Person) (p : Person) (interval t c : Nat),
      (computeOccupancy people interval).cells t c ≤
        (computeOccupancy (people ++ [p]) interval).cells t c) := by
  constructor
  · intro g p step t c
    rw [apply_cells]
    omega
  · intro people p interval t c
    unfold computeOccupancy
    rw [List.foldl_append]
    simp only [List.foldl_cons, List.foldl_nil]
    rw [apply_cells]
    omega

/-- When a shift ends exactly at midnight (`end = 0`), the next-day pass
`time_range(00:00, end)` itself takes the midnight-wrap branch and therefore
ticks through the whole day. -/
theorem tickCount_midnight_end (p : Person) (step : Nat) (times : List Nat) (t c d : Nat)
    (hstep : 0 < step) (hzero : p.end_ = 0) :
    tickCount p step times t c d =
      (if t ∈ times ∧ c = d then (time_range p.start 86399 step).count t else 0)
        + (if t ∈ times ∧ c = (d + 1) % 7 then
            (if t ≤ 86399 ∧ t % (step * 60) = 0 then 1 else 0)
          else 0) := by
  unfold tickCount
  rw [if_neg (by omega : ¬ p.end_ > p.start), hzero,
    time_range_count_wrap 0 0 step t hstep (Nat.le_refl 0)]
  have hA : (if 0 ≤ t ∧ t ≤ 86399 ∧ (t - 0) % (step * 60) = 0 then 1 else 0)
      = (if t ≤ 86399 ∧ t % (step * 60) = 0 then 1 else 0) :=
    if_congr (by simp) rfl rfl
  have hB : (if t < 0 ∧ t % (step * 60) = 0 then 1 else 0) = 0 :=
    if_neg (by omega)
  rw [hA, hB]
  simp

/-- C2: an overnight shift whose end is exactly 00:00 (start strictly after
00:00) makes the projector increment, for a resolved weekday `d`, every slot
of the entire day on column `(d+1) % 7` by 1 — not zero slots — because the
next-day sub-range `[00:00, 00:00)` is itself treated as a midnight wrap by
`time_range`. -/
theorem midnight_end_floods_next_day (g : Grid) (idv nm : String) (d s step t : Nat)
    (hstep : 0 < step) (hd : d < 7) (hs0 : 0 < s) (hs : s < 86400)
    (hg : g.times = stepTimes 0 86400 (step * 60)) (ht : t ∈ g.times) :
    (apply_person_to_grid g ⟨idv, nm, Mode.workingDays, [d], s, 0⟩ step).cells t
        ((d + 1) % 7) =
      g.cells t ((d + 1) % 7) + 1 := by
  have hfact := standard_times_fact g step t hstep hg ht
  rw [apply_singleton_cells, tickCount_midnight_end _ _ _ _ _ _ hstep rfl,
    if_neg (fun hc => absurd hc.2 (by omega : ¬ (d + 1) % 7 = d)),
    if_pos (⟨ht, rfl⟩ : t ∈ g.times ∧ (d + 1) % 7 = (d + 1) % 7),
    if_pos (⟨by omega, hfact.2.1⟩ : t ≤ 86399 ∧ t % (step * 60) = 0)]

/-- Witness for C2: Sunday-night shift 01:00 start, midnight end, interval 30;
the Monday 00:00 cell of the next-day column is incremented. -/
theorem midnight_end_floods_next_day_witness :
    (apply_person_to_grid (build_empty_grid 30)
        ⟨"w", "Wil", Mode.workingDays, [6], 3600, 0⟩ 30).cells 0 ((6 + 1) % 7) =
      (build_empty_grid 30).cells 0 ((6 + 1) % 7) + 1 :=
  midnight_end_floods_next_day (build_empty_grid 30) "w" "Wil" 6 3600 30 0 (by decide)
    (by decide) (by decide) (by decide) rfl (by decide)

/-- C1 (amended): for every overnight person shift at minute resolution whose
end is strictly after 00:00, and every resolved weekday `d`, the projector
increments on day `d` exactly the slots `start ≤ t ≤ 23:59:59` stepping from
`start`, and on day `(d+1) % 7` exactly the slots `00:00 ≤ t < end` stepping
from `00:00`, each by 1, changing no other cell.  (When end = 00:00 the
next-day pass floods the whole column instead — the original claim fails
there, see the counterexample and C2.) -/
theorem overnight_projection_amended (g : Grid) (idv nm : String) (d s e step t c : Nat)
    (hstep : 0 < step) (hd : d < 7) (hov : e ≤ s) (hs : s < 86400) (hs60 : s % 60 = 0)
    (he : 0 < e) (hg : g.times = stepTimes 0 86400 (step * 60)) :
    (apply_person_to_grid g ⟨idv, nm, Mode.workingDays, [d], s, e⟩ step).cells t c =
      g.cells t c
        + (if c = d ∧ t ∈ g.times ∧ s ≤ t ∧ t ≤ 86399 ∧ (t - s) % (step * 60) = 0 then 1
            else 0)
        + (if c = (d + 1) % 7 ∧ t ∈ g.times ∧ t < e ∧ t % (step * 60) = 0 then 1 else 0) := by
  have hs' : s < 86399 := by omega
  have hA : (if t ∈ g.times ∧ c = d then
        (if s ≤ t ∧ t < 86399 ∧ (t - s) % (step * 60) = 0 then 1 else 0) else 0)
      = (if c = d ∧ t ∈ g.times ∧ s ≤ t ∧ t ≤ 86399 ∧ (t - s) % (step * 60) = 0 then 1
          else 0) := by
    rw [← ite_and]
    refine if_congr ?_ rfl rfl
    constructor
    · rintro ⟨⟨ht, hcd⟩, h1, h2, h3⟩
      exact ⟨hcd, ht, h1, by omega, h3⟩
    · rintro ⟨hcd, ht, h1, h2, h3⟩
      have hf := standard_times_fact g step t hstep hg ht
      exact ⟨⟨ht, hcd⟩, h1, by omega, h3⟩
  have hB : (if t ∈ g.times ∧ c = (d + 1) % 7 then
        (if t < e ∧ t % (step * 60) = 0 then 1 else 0) else 0)
      = (if c = (d + 1) % 7 ∧ t ∈ g.times ∧ t < e ∧ t % (step * 60) = 0 then 1 else 0) := by
    rw [← ite_and]
    exact if_congr (by tauto) rfl rfl
  rw [apply_singleton_cells, tickCount_overnight _ _ _ _ _ _ hstep hov hs' he, hA, hB,
    ← Nat.add_assoc]

set_option maxRecDepth 100000 in
/-- Counterexample to C1 as stated: the overnight shift 10:00 → 00:00 on
Monday.  The claim says the Tuesday column receives exactly the slots
`00:00 ≤ t < 00:00` — none at all — yet the code increments the Tuesday
00:00 cell (indeed the whole Tuesday column) by 1. -/
theorem overnight_projection_counterexample :
    (apply_person_to_grid (build_empty_grid 60)
        ⟨"p1", "Nora", Mode.workingDays, [0], 36000, 0⟩ 60).cells 0 1 = 1 ∧
      ¬ ((0 : Nat) < 0) :=
  ⟨by decide, by decide⟩

/-- Witness for C1 (amended): Sunday 22:00 → 06:00 at interval 30; the Monday
00:00 cell (next-day column of day 6) gains exactly one increment. -/
theorem overnight_projection_amended_witness :
    (apply_person_to_grid (build_empty_grid 30)
        ⟨"s", "Sam", Mode.workingDays, [6], 79200, 21600⟩ 30).cells 0 0 =
      (build_empty_grid 30).cells 0 0
        + (if 0 = 6 ∧ (0 : Nat) ∈ (build_empty_grid 30).times ∧ 79200 ≤ 0 ∧ 0 ≤ 86399 ∧
            ((0 : Nat) - 79200) % (30 * 60) = 0 then 1 else 0)
        + (if 0 = (6 + 1) % 7 ∧ (0 : Nat) ∈ (build_empty_grid 30).times ∧ 0 < 21600 ∧
            (0 : Nat) % (30 * 60) = 0 then 1 else 0) :=
  overnight_projection_amended (build_empty_grid 30) "s" "Sam" 6 79200 21600 30 0 0
    (by decide) (by decide) (by decide) (by decide) (by decide) (by decide) rfl

/-- C8: the overnight shift 23:30 → 00:30 at interval 30, on a single resolved
weekday `d`, increments exactly the 23:30 slot on day `d` and the 00:00 slot on
day `(d+1) % 7`, each by 1 — two total increments, not three. -/
theorem boundary_overnight_two_slots (d : Nat) (hd : d < 7) (t c : Nat) :
    (computeOccupancy [⟨"p1", "Nia", Mode.workingDays, [d], 84600, 1800⟩] 30).cells t c =
      if (c = d ∧ t = 84600) ∨ (c = (d + 1) % 7 ∧ t = 0) then 1 else 0 := by
  rw [computeOccupancy_singleton, apply_singleton_cells,
    tickCount_overnight _ _ _ _ _ _ (by norm_num) (by norm_num) (by norm_num) (by norm_num),
    show (build_empty_grid 30).cells t c = 0 from rfl, Nat.zero_add]
  have hmem := build_times_mem 30 t (by norm_num)
  simp only [hmem]
  split_ifs <;> omega

/-- Witness for C8 at d = Monday, the 23:30 Monday cell. -/
theorem boundary_overnight_two_slots_witness :
    (0 : Nat) < 7 ∧
    (computeOccupancy [⟨"p1", "Nia", Mode.workingDays, [0], 84600, 1800⟩] 30).cells 84600 0 =
      if ((0 : Nat) = 0 ∧ (84600 : Nat) = 84600) ∨ (0 = (0 + 1) % 7 ∧ 84600 = 0) then 1
      else 0 :=
  ⟨by decide, boundary_overnight_two_slots 0 (by decide) 84600 0⟩

set_option maxRecDepth 100000 in
/-- Counterexample to C6 as stated: interval 7 does not evenly divide 1440,
yet the grid builder simply returns a 206-row grid — there is no
`InvalidConfig` failure path anywhere in `build_empty_grid`. -/
theorem buildEmptyGrid_no_validation_counterexample :
    (build_empty_grid 7).times.length = 206 ∧ (build_empty_grid 7).days.length = 7 ∧
      ¬ (1440 % 7 = 0) :=
  ⟨by decide, by decide, by decide⟩

/-- C6 (amended): `build_empty_grid` performs no interval validation and has no
failure path: for every positive interval size — dividing 1440 or not — it
returns a grid whose rows are exactly the multiples of the step width below
24 h, with the 7 weekday columns and all cells zero.  (Unsupported interval
sizes are excluded upstream by the UI selectbox restricted to 15/30/60; a
non-positive size would make the Python row loop diverge rather than raise.) -/
theorem buildEmptyGrid_no_validation (i : Nat) (hi : 0 < i) :
    (build_empty_grid i).days = DAYS ∧
    (∀ t, t ∈ (build_empty_grid i).times ↔ t < 86400 ∧ t % (i * 60) = 0) ∧
    (∀ t c, (build_empty_grid i).cells t c = 0) :=
  ⟨rfl, fun t => build_times_mem i t hi, fun t c => rfl⟩

set_option maxRecDepth 100000 in
/-- Witness for C6 (amended) at the non-dividing interval 7. -/
theorem buildEmptyGrid_no_validation_witness :
    (0 : Nat) < 7 ∧ (build_empty_grid 7).days = DAYS ∧
      ((420 : Nat) ∈ (build_empty_grid 7).times ↔ 420 < 86400 ∧ 420 % (7 * 60) = 0) ∧
      (build_empty_grid 7).cells 0 0 = 0 :=
  ⟨by decide, (buildEmptyGrid_no_validation 7 (by decide)).1,
    (buildEmptyGrid_no_validation 7 (by decide)).2.1 420,
    (buildEmptyGrid_no_validation 7 (by decide)).2.2 0 0⟩

/-- C10: the add/update action rejects a whitespace-only name, and then an
identical start/end time, each with its descriptive message, leaving the
person list (hence the recomputed grid) unchanged; a valid submission appends
the new record, or replaces the record whose id matches the edit id. -/
theorem add_update_validation (people : List Person) (edit_id : Option String)
    (new_id name : String) (mode : Mode) (days : List Nat) (s e : Nat) :
    (pyStrip name = "" →
      add_update_action people edit_id new_id name mode days s e =
        (people, some "Please enter a name.")) ∧
    (pyStrip name ≠ "" → s = e →
      add_update_action people edit_id new_id name mode days s e =
        (people, some "Start time and end time cannot be identical (duration would be 0).")) ∧
    (∀ interval, (add_update_action people edit_id new_id name mode days s e).2 ≠ none →
      computeOccupancy (add_update_action people edit_id new_id name mode days s e).1
          interval =
        computeOccupancy people interval) ∧
    (pyStrip name ≠ "" → s ≠ e →
      (add_update_action people edit_id new_id name mode days s e).2 = none ∧
      (add_update_action people edit_id new_id name mode days s e).1 =
        (match edit_id with
          | none => people ++ [⟨new_id, pyStrip name, mode, days, s, e⟩]
          | some eid => replaceFirst people eid ⟨eid, pyStrip name, mode, days, s, e⟩)) := by
  unfold add_update_action
  by_cases h1 : pyStrip name = ""
  · rw [if_pos h1]
    exact ⟨fun _ => rfl, fun hn _ => absurd h1 hn, fun interval _ => rfl,
      fun hn _ => absurd h1 hn⟩
  · rw [if_neg h1]
    by_cases h2 : s = e
    · rw [if_pos h2]
      exact ⟨fun hb => absurd hb h1, fun _ _ => rfl, fun interval _ => rfl,
        fun _ hne => absurd h2 hne⟩
    · rw [if_neg h2]
      cases edit_id with
      | none =>
        exact ⟨fun hb => absurd hb h1, fun _ hb => absurd hb h2,
          fun interval hc => absurd rfl hc, fun _ _ => ⟨rfl, rfl⟩⟩
      | some eid =>
        exact ⟨fun hb => absurd hb h1, fun _ hb => absurd hb h2,
          fun interval hc => absurd rfl hc, fun _ _ => ⟨rfl, rfl⟩⟩

/-- Witness for C10: a whitespace-only name (space, vertical tab, no-break
space) is rejected with the message and the (empty) person list is unchanged. -/
theorem add_update_validation_witness :
    pyStrip " \x0B\u00A0" = "" ∧
      add_update_action [] none "fresh" " \x0B\u00A0" Mode.workingDays [0] 32400 61200 =
        ([], some "Please enter a name.") :=
  ⟨by decide,
    (add_update_validation [] none "fresh" " \x0B\u00A0" Mode.workingDays [0] 32400
        61200).1 (by decide)⟩

end Scheduler
